import Mathlib

/-!
Verification of the onedriver launcher's systemd unit-name codec and
filesystem helpers (`src/launcher/systemd.c`, `src/launcher/onedriver.c`).

C strings are modelled as `List Nat`, one element per byte of the string
(the terminating NUL is not part of the list).  Machine arithmetic on
bytes is carried out on `Nat` with explicit masking, mirroring the C
expressions.  Functions that can fail, or whose C originals crash on some
inputs, return `Option`; a comment at each `none` says which it is.
-/

set_option maxRecDepth 8000

namespace Onedriver

/-- The bytes of an ASCII string literal; used to write concrete inputs. -/
def bytes (s : String) : List Nat := s.data.map Char.toNat

/-- `VALID_CHARS` from `systemd.h`: digits, letters, and `:-_.\`. -/
def VALID_CHARS : List Nat :=
  bytes "0123456789abcdefghijklmnopqrstuvwxyzABCDEFGHIJKLMNOPQRSTUVWXYZ:-_.\\"

/-- The lookup table of `systemd_hexchar`. -/
def hextable : List Nat := bytes "0123456789abcdef"

/-- `systemd_hexchar` from `systemd.c`: `table[x & 15]`. -/
def systemd_hexchar (x : Nat) : Nat := hextable.getD (x &&& 15) 48

/-- `systemd_unhexchar` from `systemd.c`; `-22` is `-EINVAL`. -/
def systemd_unhexchar (c : Nat) : Int :=
  if 48 ≤ c ∧ c ≤ 57 then (c : Int) - 48
  else if 97 ≤ c ∧ c ≤ 102 then ((c : Int) - 97) + 10
  else if 65 ≤ c ∧ c ≤ 70 then ((c : Int) - 65) + 10
  else -22

/-- `escape_char` from `systemd.c`: emits `\xHH`, `HH` the hex nibbles of `c`. -/
def escape_char (c : Nat) : List Nat :=
  [92, 120, systemd_hexchar (c >>> 4), systemd_hexchar c]

/-- The scanning loop of `systemd_escape` (systemd's `do_escape`):
`/` becomes `-`; `-`, `\` and bytes outside `VALID_CHARS` are escaped;
everything else passes through. -/
def escBody : List Nat → List Nat
  | [] => []
  | c :: s =>
    if c = 47 then 45 :: escBody s
    else if c = 45 ∨ c = 92 ∨ c ∉ VALID_CHARS then escape_char c ++ escBody s
    else c :: escBody s

/-- `systemd_escape` from `systemd.c`: a leading `.` is escaped before the
scanning loop runs on the rest of the string. -/
def systemd_escape (s : List Nat) : List Nat :=
  match s with
  | [] => escBody []
  | c :: t => if c = 46 then escape_char 46 ++ escBody t else escBody (c :: t)

/-- `systemd_unescape` from `systemd.c`: `-` becomes `/`; a `\` must be
followed by `x` and two hex digits and decodes to that byte; anything else
passes through.  `none` models the C function freeing its buffer and
returning `NULL`. -/
def systemd_unescape : List Nat → Option (List Nat)
  | [] => some []
  | c :: t =>
    if c = 45 then (systemd_unescape t).map (fun r => 47 :: r)
    else if c = 92 then
      match t with
      | x :: h1 :: h2 :: t' =>
        if x ≠ 120 then none
        else if systemd_unhexchar h1 < 0 then none
        else if systemd_unhexchar h2 < 0 then none
        else (systemd_unescape t').map
          (fun r => (((systemd_unhexchar h1).toNat <<< 4) |||
                     (systemd_unhexchar h2).toNat) :: r)
      | _ => none
    else (systemd_unescape t).map (fun r => c :: r)

/-- `if (p[path_len - 1] == '/') p[path_len - 1] = '\0';` in
`systemd_path_escape`: drop one trailing slash. -/
def stripTrailingSlash (p : List Nat) : List Nat :=
  if p.getLast? = some 47 then p.dropLast else p

/-- `if (p[0] == '/') p++;` in `systemd_path_escape`: drop one leading
slash. -/
def stripLeadingSlash : List Nat → List Nat
  | 47 :: rest => rest
  | p => p

/-- `systemd_path_escape` from `systemd.c`: the empty path and `/` encode to
`-`; otherwise one trailing slash, then one leading slash is stripped and
the rest is escaped.  Allocation failure is not modelled. -/
def systemd_path_escape (path : List Nat) : List Nat :=
  if path.length = 0 ∨ path = [47] then [45]
  else systemd_escape (stripLeadingSlash (stripTrailingSlash path))

/-- `systemd_path_unescape` from `systemd.c`: unescape and put a `/` in
front; fails exactly when `systemd_unescape` fails. -/
def systemd_path_unescape (inst : List Nat) : Option (List Nat) :=
  (systemd_unescape inst).map (fun u => 47 :: u)

/-- Index of the first occurrence of `c` (C's `strchr`, as an offset). -/
def firstIdx (c : Nat) : List Nat → Option Nat
  | [] => none
  | b :: t => if b = c then some 0 else (firstIdx c t).map (· + 1)

/-- Index of the last occurrence of `c` (C's `strrchr`, as an offset). -/
def lastIdx (c : Nat) : List Nat → Option Nat
  | [] => none
  | b :: t =>
    match lastIdx c t with
    | some j => some (j + 1)
    | none => if b = c then some 0 else none

/-- `systemd_template_unit` from `systemd.c`: copy the template through its
first `@`, then the instance, then the template from its last `.`.  The C
code never checks the `strchr`/`strrchr` results: when either is absent it
does arithmetic on a NULL-derived pointer and calls `strlen(NULL)` —
undefined behaviour (a crash, not an error return), modelled as `none`. -/
def systemd_template_unit (template inst : List Nat) : Option (List Nat) :=
  match firstIdx 64 template, lastIdx 46 template with
  | some a, some d => some (template.take (a + 1) ++ inst ++ template.drop d)
  | _, _ => none

/-- `systemd_untemplate_unit` from `systemd.c`: `start` is one past the last
`@` (error `-1` if none), `end` is the last `.` (or the length), and the
instance is the bytes in between.  When `end < start` the C code passes a
negative length to `malloc`/`strncpy` (a crash), modelled as `none`. -/
def systemd_untemplate_unit (unit_name : List Nat) : Option (List Nat) :=
  match lastIdx 64 unit_name with
  | none => none
  | some j =>
    let start := j + 1
    let stop := (lastIdx 46 unit_name).getD unit_name.length
    if stop < start then none
    else some ((unit_name.drop start).take (stop - start))

/-- Outcome of the `GetUnit` bus call in the model of the session bus. -/
inductive GetUnitResult where
  | ok (unitPath : List Nat)
  | noSuchUnit
  | err
  deriving DecidableEq

/-- Model of the DBus world `systemd_unit_is_active` talks to: whether the
manager proxy can be created, what `GetUnit` answers per unit name, whether
a proxy for a unit path can be created, and each unit path's cached
`ActiveState` property. -/
structure DBus where
  managerProxy : Bool
  getUnit : List Nat → GetUnitResult
  unitProxy : List Nat → Bool
  activeState : List Nat → List Nat

/-- `systemd_unit_is_active` from `systemd.c`.  `g_error` is fatal (it
aborts the process), so every branch that reaches `g_error` is modelled as
`none`; a `NoSuchUnit` reply from `GetUnit` is recognized before `g_error`
and yields the normal return value `false`. -/
def systemd_unit_is_active (bus : DBus) (unit_name : List Nat) : Option Bool :=
  if !bus.managerProxy then none
  else
    match bus.getUnit unit_name with
    | GetUnitResult.noSuchUnit => some false
    | GetUnitResult.err => none
    | GetUnitResult.ok path =>
      if !bus.unitProxy path then none
      else some (bus.activeState path = bytes "active")

/-- `XDG_VOLUME_INFO` from `onedriver.h`. -/
def XDG_VOLUME_INFO : List Nat := bytes ".xdg-volume-info"

/-- The loop of `fs_poll_until_avail`: `env i` is what the `i`-th
`opendir`+`readdir` pass observes (`none` when the directory cannot be
opened).  Returns the final value of `found` and the number of directory
polls performed. -/
def pollLoop (env : Nat → Option (List (List Nat))) : Nat → Nat → Bool × Nat
  | 0, i => (false, i)
  | fuel + 1, i =>
    match env i with
    | none => (false, i)
    | some entries =>
      if XDG_VOLUME_INFO ∈ entries then (true, i + 1)
      else pollLoop env fuel (i + 1)

/-- `fs_poll_until_avail` from `onedriver.c`: a timeout of `-1` means 120
seconds; the directory is polled at most `timeout * 10` times. -/
def fs_poll_until_avail (env : Nat → Option (List (List Nat)))
    (timeout : Int) : Bool × Nat :=
  let t : Int := if timeout = -1 then 120 else timeout
  pollLoop env (t * 10).toNat 0

/-- `fs_mountpoint_is_valid` from `onedriver.c`: `dirs` is the filesystem,
mapping a path to its directory listing (`none` when `opendir` fails). -/
def fs_mountpoint_is_valid (dirs : List Nat → Option (List (List Nat)))
    (mountpoint : List Nat) : Bool :=
  if mountpoint.length = 0 then false
  else
    match dirs mountpoint with
    | none => false
    | some entries => entries.all (fun e => e = bytes "." || e = bytes "..")

/-- A `struct dirent` as far as `fs_known_mounts` reads it. -/
structure DirEnt where
  d_name : List Nat
  d_type : Nat

/-- The `readdir` loop of `fs_known_mounts`: keep entries with the `DT_DIR`
bit (4) set whose names do not start with `.`, unescape each name, put `/`
in front, and keep those the `stat` oracle says are directories.  When
`systemd_unescape` fails the C code calls `strlen(NULL)` — a crash, not a
return — modelled as `none`. -/
def knownMountsLoop (statIsDir : List Nat → Bool) :
    List DirEnt → Option (List (List Nat))
  | [] => some []
  | e :: rest =>
    if e.d_type &&& 4 ≠ 0 ∧ e.d_name.headD 0 ≠ 46 then
      match systemd_unescape e.d_name with
      | none => none
      | some path =>
        let fullpath := 47 :: path
        if statIsDir fullpath then
          (knownMountsLoop statIsDir rest).map (fun r => fullpath :: r)
        else knownMountsLoop statIsDir rest
    else knownMountsLoop statIsDir rest

/-- `fs_known_mounts` from `onedriver.c`: when the cache root cannot be
opened the result is the empty list (a lone NULL terminator); otherwise the
`readdir` loop above runs over its entries. -/
def fs_known_mounts (cache : Option (List DirEnt))
    (statIsDir : List Nat → Bool) : Option (List (List Nat)) :=
  match cache with
  | none => some []
  | some entries => knownMountsLoop statIsDir entries

/-- Spec-side: is `c` an ASCII hexadecimal digit? -/
def isHexDigit (c : Nat) : Bool :=
  decide ((48 ≤ c ∧ c ≤ 57) ∨ (97 ≤ c ∧ c ≤ 102) ∨ (65 ≤ c ∧ c ≤ 70))

/-- Spec-side: the value of a hexadecimal digit. -/
def hexDigitVal (c : Nat) : Nat :=
  if 48 ≤ c ∧ c ≤ 57 then c - 48
  else if 97 ≤ c ∧ c ≤ 102 then c - 87
  else if 65 ≤ c ∧ c ≤ 70 then c - 55
  else 0

/-- Spec-side (from the claim's words): every backslash the unescape scan
reaches is followed by `x` and exactly two valid hexadecimal digits. -/
def goodEscapes : List Nat → Bool
  | [] => true
  | c :: t =>
    if c = 92 then
      match t with
      | x :: h1 :: h2 :: t' => x = 120 && isHexDigit h1 && isHexDigit h2 && goodEscapes t'
      | _ => false
    else goodEscapes t

/-- Spec-side (from the claim's words): `-` decodes to `/`, a well-formed
`\xHH` decodes to the byte `HH`, every other byte passes through unchanged.
Only meaningful on inputs satisfying `goodEscapes`. -/
def specDecode : List Nat → List Nat
  | [] => []
  | 92 :: x :: h1 :: h2 :: t' =>
    if x = 120 && isHexDigit h1 && isHexDigit h2 then
      (hexDigitVal h1 * 16 + hexDigitVal h2) :: specDecode t'
    else 92 :: specDecode (x :: h1 :: h2 :: t')
  | 92 :: t => 92 :: specDecode t
  | c :: t => if c = 45 then 47 :: specDecode t else c :: specDecode t
  termination_by l => l.length
  decreasing_by all_goals simp <;> omega

/-! ### Lemmas about the hex tables -/

theorem and15_lt (x : Nat) : x &&& 15 < 16 :=
  Nat.lt_of_le_of_lt Nat.and_le_right (by norm_num)

theorem unhex_hexchar (x : Nat) :
    systemd_unhexchar (systemd_hexchar x) = ((x &&& 15 : Nat) : Int) := by
  have key : ∀ m : Fin 16,
      systemd_unhexchar (hextable.getD (m : Nat) 48) = ((m : Nat) : Int) := by decide
  exact key ⟨x &&& 15, and15_lt x⟩

theorem unhex_hexchar_not_neg (x : Nat) :
    ¬ systemd_unhexchar (systemd_hexchar x) < 0 := by
  rw [unhex_hexchar]; omega

theorem hexchar_mem (x : Nat) : systemd_hexchar x ∈ hextable := by
  have key : ∀ m : Fin 16, hextable.getD (m : Nat) 48 ∈ hextable := by decide
  exact key ⟨x &&& 15, and15_lt x⟩

theorem byte_recompose (b : Nat) (hb : b < 256) :
    (((b >>> 4) &&& 15) <<< 4) ||| (b &&& 15) = b := by
  have key : ∀ m : Fin 256,
      ((((m : Nat) >>> 4) &&& 15) <<< 4) ||| ((m : Nat) &&& 15) = (m : Nat) := by decide
  exact key ⟨b, hb⟩

/-! ### How `systemd_unescape` consumes each kind of output byte -/

theorem unescape_dash (t : List Nat) :
    systemd_unescape (45 :: t) = (systemd_unescape t).map (fun r => 47 :: r) := by
  rw [systemd_unescape.eq_def]
  rfl

theorem unescape_pass (c : Nat) (t : List Nat) (h45 : c ≠ 45) (h92 : c ≠ 92) :
    systemd_unescape (c :: t) = (systemd_unescape t).map (fun r => c :: r) := by
  rw [systemd_unescape.eq_def]
  simp [h45, h92]

theorem unescape_escape_char (b : Nat) (hb : b < 256) (t : List Nat) :
    systemd_unescape (escape_char b ++ t) = (systemd_unescape t).map (fun r => b :: r) := by
  show systemd_unescape
      (92 :: 120 :: systemd_hexchar (b >>> 4) :: systemd_hexchar b :: t) = _
  rw [systemd_unescape.eq_def]
  simp only [if_neg (by decide : ¬ (92 : Nat) = 45), if_pos (rfl : (92 : Nat) = 92)]
  rw [if_neg (by simp : ¬ (120 : Nat) ≠ 120), if_neg (unhex_hexchar_not_neg (b >>> 4)),
    if_neg (unhex_hexchar_not_neg b), unhex_hexchar, unhex_hexchar]
  simp only [Int.toNat_natCast]
  rw [byte_recompose b hb]
  simp

/-! ### Round trip: unescaping recovers what was escaped -/

theorem unescape_escBody (s : List Nat) (h : ∀ b ∈ s, b < 256) :
    systemd_unescape (escBody s) = some s := by
  induction s with
  | nil => rfl
  | cons c t ih =>
    have hc : c < 256 := h c (List.mem_cons_self c t)
    have ht : ∀ b ∈ t, b < 256 := fun b hb => h b (List.mem_cons_of_mem c hb)
    by_cases h47 : c = 47
    · subst h47
      have hb : escBody (47 :: t) = 45 :: escBody t := by
        simp [escBody]
      rw [hb, unescape_dash, ih ht]
      rfl
    · by_cases hesc : c = 45 ∨ c = 92 ∨ c ∉ VALID_CHARS
      · have hb : escBody (c :: t) = escape_char c ++ escBody t := by
          simp only [escBody, if_neg h47, if_pos hesc]
        rw [hb, unescape_escape_char c hc, ih ht]
        rfl
      · have h45 : c ≠ 45 := fun e => hesc (Or.inl e)
        have h92 : c ≠ 92 := fun e => hesc (Or.inr (Or.inl e))
        have hb : escBody (c :: t) = c :: escBody t := by
          simp only [escBody, if_neg h47, if_neg hesc]
        rw [hb, unescape_pass c _ h45 h92, ih ht]
        rfl

theorem unescape_escape (s : List Nat) (h : ∀ b ∈ s, b < 256) :
    systemd_unescape (systemd_escape s) = some s := by
  cases s with
  | nil => rfl
  | cons c t =>
    have ht : ∀ b ∈ t, b < 256 := fun b hb => h b (List.mem_cons_of_mem c hb)
    by_cases hc : c = 46
    · subst hc
      have he : systemd_escape (46 :: t) = escape_char 46 ++ escBody t := by
        simp [systemd_escape]
      rw [he, unescape_escape_char 46 (by norm_num), unescape_escBody t ht]
      rfl
    · have he : systemd_escape (c :: t) = escBody (c :: t) := by
        simp [systemd_escape, hc]
      rw [he, unescape_escBody (c :: t) h]

/-! ### What bytes escaping can emit -/

theorem mem_escape_char (x c : Nat) (h : x ∈ escape_char c) :
    x = 92 ∨ x = 120 ∨ x ∈ hextable := by
  simp only [escape_char, List.mem_cons, List.not_mem_nil, or_false] at h
  rcases h with rfl | rfl | rfl | rfl
  · exact Or.inl rfl
  · exact Or.inr (Or.inl rfl)
  · exact Or.inr (Or.inr (hexchar_mem _))
  · exact Or.inr (Or.inr (hexchar_mem _))

theorem mem_escBody (x : Nat) (s : List Nat) (h : x ∈ escBody s) :
    x = 45 ∨ x = 92 ∨ x = 120 ∨ x ∈ hextable ∨ x ∈ VALID_CHARS := by
  induction s with
  | nil => simp [escBody] at h
  | cons c t ih =>
    by_cases h47 : c = 47
    · subst h47
      have hb : escBody (47 :: t) = 45 :: escBody t := by simp [escBody]
      rw [hb] at h
      rcases List.mem_cons.mp h with rfl | h
      · exact Or.inl rfl
      · exact ih h
    · by_cases hesc : c = 45 ∨ c = 92 ∨ c ∉ VALID_CHARS
      · have hb : escBody (c :: t) = escape_char c ++ escBody t := by
          simp only [escBody, if_neg h47, if_pos hesc]
        rw [hb, List.mem_append] at h
        rcases h with h | h
        · rcases mem_escape_char x c h with rfl | rfl | h
          · exact Or.inr (Or.inl rfl)
          · exact Or.inr (Or.inr (Or.inl rfl))
          · exact Or.inr (Or.inr (Or.inr (Or.inl h)))
        · exact ih h
      · have hmem : c ∈ VALID_CHARS := by
          by_contra hc
          exact hesc (Or.inr (Or.inr hc))
        have hb : escBody (c :: t) = c :: escBody t := by
          simp only [escBody, if_neg h47, if_neg hesc]
        rw [hb] at h
        rcases List.mem_cons.mp h with rfl | h
        · exact Or.inr (Or.inr (Or.inr (Or.inr hmem)))
        · exact ih h

theorem mem_escape (x : Nat) (s : List Nat) (h : x ∈ systemd_escape s) :
    x = 45 ∨ x = 92 ∨ x = 120 ∨ x ∈ hextable ∨ x ∈ VALID_CHARS := by
  cases s with
  | nil => simp [systemd_escape, escBody] at h
  | cons c t =>
    by_cases hc : c = 46
    · subst hc
      have he : systemd_escape (46 :: t) = escape_char 46 ++ escBody t := by
        simp [systemd_escape]
      rw [he, List.mem_append] at h
      rcases h with h | h
      · rcases mem_escape_char x 46 h with rfl | rfl | h
        · exact Or.inr (Or.inl rfl)
        · exact Or.inr (Or.inr (Or.inl rfl))
        · exact Or.inr (Or.inr (Or.inr (Or.inl h)))
      · exact mem_escBody x t h
    · have he : systemd_escape (c :: t) = escBody (c :: t) := by
        simp [systemd_escape, hc]
      rw [he] at h
      exact mem_escBody x (c :: t) h

theorem escape_no_slash (s : List Nat) : 47 ∉ systemd_escape s := by
  intro h
  rcases mem_escape 47 s h with h | h | h | h | h <;> revert h <;> decide

theorem escape_no_at (s : List Nat) : 64 ∉ systemd_escape s := by
  intro h
  rcases mem_escape 64 s h with h | h | h | h | h <;> revert h <;> decide

/-! ### C1: the path round trip -/

/-- C1, counterexample: the claim quantifies over every normalized absolute
path including the root `/`, but the code sends `/` to `-`, unescapes `-`
to `/`, and then prepends another `/`, so the root round-trips to `//`,
not to `/`. -/
theorem c1_root_counterexample :
    systemd_path_unescape (systemd_path_escape (bytes "/")) ≠ some (bytes "/") := by
  decide

/-- C1 (amended): for every normalized absolute path other than the root —
a path that starts with `/`, is longer than `/`, and has no trailing
slash — unescaping the escaped form recovers the path exactly.  The root
path `/` itself round-trips to `//`. -/
theorem c1_roundtrip_amended (q : List Nat) (hq : q ≠ []) (hsl : q.getLast? ≠ some 47)
    (hb : ∀ b ∈ q, b < 256) :
    systemd_path_unescape (systemd_path_escape (47 :: q)) = some (47 :: q) := by
  obtain ⟨qh, qt, rfl⟩ : ∃ qh qt, q = qh :: qt := by
    cases q with
    | nil => exact absurd rfl hq
    | cons qh qt => exact ⟨qh, qt, rfl⟩
  have hne : ¬((47 :: qh :: qt).length = 0 ∨ (47 :: qh :: qt) = [47]) := by simp
  have hst : stripTrailingSlash (47 :: qh :: qt) = 47 :: qh :: qt := by
    unfold stripTrailingSlash
    rw [List.getLast?_cons_cons]
    exact if_neg hsl
  have hpe : systemd_path_escape (47 :: qh :: qt) = systemd_escape (qh :: qt) := by
    unfold systemd_path_escape
    rw [if_neg hne, hst]
    rfl
  rw [hpe]
  unfold systemd_path_unescape
  rw [unescape_escape _ hb]
  rfl

/-- Witness for `c1_roundtrip_amended` at the concrete path `/home`. -/
theorem c1_roundtrip_amended_witness :
    systemd_path_unescape (systemd_path_escape (47 :: bytes "home")) =
      some (47 :: bytes "home") :=
  c1_roundtrip_amended (bytes "home") (by decide) (by decide) (by decide)

/-! ### C5: the escaped output fits in the worst-case buffer -/

theorem escBody_length (s : List Nat) : (escBody s).length ≤ 4 * s.length := by
  induction s with
  | nil => simp [escBody]
  | cons c t ih =>
    by_cases h47 : c = 47
    · subst h47
      have hb : escBody (47 :: t) = 45 :: escBody t := by simp [escBody]
      rw [hb]
      simp only [List.length_cons]
      omega
    · by_cases hesc : c = 45 ∨ c = 92 ∨ c ∉ VALID_CHARS
      · have hb : escBody (c :: t) = escape_char c ++ escBody t := by
          simp only [escBody, if_neg h47, if_pos hesc]
        rw [hb]
        simp [escape_char]
        omega
      · have hb : escBody (c :: t) = c :: escBody t := by
          simp only [escBody, if_neg h47, if_neg hesc]
        rw [hb]
        simp only [List.length_cons]
        omega

/-- C5: the core escape step emits at most `4 * |input|` bytes, so the
buffer `systemd_escape` allocates — `strlen(str) * 4 + 1` bytes, worst case
four output bytes per input byte plus the terminator — is always large
enough and every write stays inside it. -/
theorem c5_escape_output_fits (s : List Nat) :
    (systemd_escape s).length ≤ 4 * s.length := by
  cases s with
  | nil => simp [systemd_escape, escBody]
  | cons c t =>
    by_cases hc : c = 46
    · subst hc
      have he : systemd_escape (46 :: t) = escape_char 46 ++ escBody t := by
        simp [systemd_escape]
      rw [he]
      have := escBody_length t
      simp [escape_char]
      omega
    · have he : systemd_escape (c :: t) = escBody (c :: t) := by
        simp [systemd_escape, hc]
      rw [he]
      exact escBody_length (c :: t)

/-! ### C6: the special cases and slash stripping of `systemd_path_escape` -/

/-- C6: the empty path and the root path `/` both escape to the single
byte `-`; every other path has exactly one trailing slash and then exactly
one leading slash stripped before the generic escape runs; and no escaped
path ever contains the path separator `/` — in particular it neither
begins nor ends with it. -/
theorem c6_path_escape_spec :
    systemd_path_escape [] = [45] ∧
    systemd_path_escape (bytes "/") = [45] ∧
    (∀ p : List Nat, p ≠ [] → p ≠ [47] →
      systemd_path_escape p = systemd_escape (stripLeadingSlash (stripTrailingSlash p))) ∧
    (∀ p : List Nat, 47 ∉ systemd_path_escape p) := by
  refine ⟨by decide, by decide, ?_, ?_⟩
  · intro p h1 h2
    unfold systemd_path_escape
    rw [if_neg]
    simp [h1, h2, List.length_eq_zero]
  · intro p
    unfold systemd_path_escape
    split
    · decide
    · exact escape_no_slash _

/-- Witness for `c6_path_escape_spec` at the concrete path `/opt/test/`. -/
theorem c6_path_escape_spec_witness :
    systemd_path_escape (bytes "/opt/test/") =
      systemd_escape (stripLeadingSlash (stripTrailingSlash (bytes "/opt/test/"))) :=
  c6_path_escape_spec.2.2.1 (bytes "/opt/test/") (by decide) (by decide)

/-! ### C3: exact failure and success behaviour of `systemd_unescape` -/

theorem unhex_neg_iff (c : Nat) :
    systemd_unhexchar c < 0 ↔ isHexDigit c = false := by
  unfold systemd_unhexchar isHexDigit
  split_ifs with h1 h2 h3 <;> simp <;> omega

theorem unhex_toNat (c : Nat) (h : isHexDigit c = true) :
    (systemd_unhexchar c).toNat = hexDigitVal c := by
  unfold isHexDigit at h
  unfold systemd_unhexchar hexDigitVal
  split_ifs with h1 h2 h3 <;> simp at h <;> omega

theorem hexDigitVal_lt (c : Nat) : hexDigitVal c < 16 := by
  unfold hexDigitVal
  split_ifs <;> omega

theorem shift_or_eq_mul (a b : Nat) (ha : a < 16) (hb : b < 16) :
    (a <<< 4) ||| b = a * 16 + b := by
  have key : ∀ x y : Fin 16,
      ((x : Nat) <<< 4) ||| (y : Nat) = (x : Nat) * 16 + (y : Nat) := by decide
  exact key ⟨a, ha⟩ ⟨b, hb⟩

theorem goodEscapes_cons (c : Nat) (t : List Nat) (hc : c ≠ 92) :
    goodEscapes (c :: t) = goodEscapes t := by
  rw [goodEscapes.eq_def]
  simp [hc]

theorem goodEscapes_backslash3 (x h1 h2 : Nat) (t' : List Nat) :
    goodEscapes (92 :: x :: h1 :: h2 :: t') =
      (decide (x = 120) && isHexDigit h1 && isHexDigit h2 && goodEscapes t') := by
  rw [goodEscapes.eq_def]
  simp

theorem specDecode_dash (t : List Nat) : specDecode (45 :: t) = 47 :: specDecode t := by
  rw [specDecode.eq_def]
  simp

theorem specDecode_pass (c : Nat) (t : List Nat) (h45 : c ≠ 45) (h92 : c ≠ 92) :
    specDecode (c :: t) = c :: specDecode t := by
  rw [specDecode.eq_def]
  simp [h45, h92]

theorem specDecode_backslash3 (x h1 h2 : Nat) (t' : List Nat)
    (hx : x = 120) (hh1 : isHexDigit h1 = true) (hh2 : isHexDigit h2 = true) :
    specDecode (92 :: x :: h1 :: h2 :: t') =
      (hexDigitVal h1 * 16 + hexDigitVal h2) :: specDecode t' := by
  rw [specDecode.eq_def]
  simp [hx, hh1, hh2]

/-- C3: `systemd_unescape` fails — returning nothing at all, not a
truncated result — exactly on the inputs in which a backslash reached by
the scan is not followed by `x` and two valid hexadecimal digits; on every
other input each `-` decodes to `/`, each `\xHH` decodes to the byte `HH`,
and every other byte passes through unchanged (the spec-side decoder
`specDecode` and well-formedness scan `goodEscapes` are written from the
claim's words). -/
theorem c3_unescape_malformed_spec (s : List Nat) :
    systemd_unescape s = if goodEscapes s then some (specDecode s) else none := by
  induction s using systemd_unescape.induct with
  | case1 => rw [goodEscapes.eq_def, specDecode.eq_def]; rfl
  | case2 t ih =>
    rw [unescape_dash, ih, goodEscapes_cons 45 t (by decide), specDecode_dash]
    cases hg : goodEscapes t <;> simp
  | case3 x h1 h2 t' hx _ =>
    rw [systemd_unescape.eq_def]
    simp only [if_neg (by decide : ¬ (92 : Nat) = 45), if_pos (rfl : (92 : Nat) = 92)]
    rw [goodEscapes_backslash3]
    have hx120 : decide (x = 120) = false := by
      simp [hx]
    simp [hx, hx120]
  | case4 x h1 h2 t' hx hh1 _ =>
    rw [systemd_unescape.eq_def]
    simp only [if_neg (by decide : ¬ (92 : Nat) = 45), if_pos (rfl : (92 : Nat) = 92)]
    rw [goodEscapes_backslash3]
    have : isHexDigit h1 = false := (unhex_neg_iff h1).mp hh1
    simp [hx, hh1, this]
  | case5 x h1 h2 t' hx hh1 hh2 _ =>
    rw [systemd_unescape.eq_def]
    simp only [if_neg (by decide : ¬ (92 : Nat) = 45), if_pos (rfl : (92 : Nat) = 92)]
    rw [goodEscapes_backslash3]
    have : isHexDigit h2 = false := (unhex_neg_iff h2).mp hh2
    simp [hx, hh1, hh2, this]
  | case6 x h1 h2 t' hx hh1 hh2 _ ih =>
    have hx120 : x = 120 := by omega
    have hd1 : isHexDigit h1 = true := by
      cases hh : isHexDigit h1 with
      | false => exact absurd ((unhex_neg_iff h1).mpr hh) hh1
      | true => rfl
    have hd2 : isHexDigit h2 = true := by
      cases hh : isHexDigit h2 with
      | false => exact absurd ((unhex_neg_iff h2).mpr hh) hh2
      | true => rfl
    rw [systemd_unescape.eq_def]
    simp only [if_neg (by decide : ¬ (92 : Nat) = 45), if_pos (rfl : (92 : Nat) = 92)]
    rw [if_neg hx, if_neg hh1, if_neg hh2, ih,
      goodEscapes_backslash3, specDecode_backslash3 x h1 h2 t' hx120 hd1 hd2,
      unhex_toNat h1 hd1, unhex_toNat h2 hd2,
      shift_or_eq_mul _ _ (hexDigitVal_lt h1) (hexDigitVal_lt h2)]
    cases hg : goodEscapes t' <;> simp [hx120, hd1, hd2, hg]
  | case7 t hshape _ =>
    match t, hshape with
    | [], _ => rfl
    | [a], _ => rfl
    | [a, b], _ => rfl
    | a :: b :: c :: t', hshape => exact absurd rfl (hshape a b c t')
  | case8 c t h45 h92 ih =>
    rw [unescape_pass c t h45 h92, ih, goodEscapes_cons c t h92,
      specDecode_pass c t h45 h92]
    cases hg : goodEscapes t <;> simp

/-! ### `strchr`/`strrchr` index lemmas -/

theorem lastIdx_cons (c b : Nat) (t : List Nat) :
    lastIdx c (b :: t) =
      match lastIdx c t with
      | some j => some (j + 1)
      | none => if b = c then some 0 else none := by
  rw [lastIdx.eq_def]

theorem firstIdx_cons (c b : Nat) (t : List Nat) :
    firstIdx c (b :: t) = if b = c then some 0 else (firstIdx c t).map (· + 1) := by
  rw [firstIdx.eq_def]

theorem lastIdx_not_mem (c : Nat) (s : List Nat) (h : c ∉ s) : lastIdx c s = none := by
  induction s with
  | nil => rfl
  | cons b t ih =>
    simp only [List.mem_cons, not_or] at h
    rw [lastIdx_cons, ih h.2]
    exact if_neg (fun e => h.1 e.symm)

theorem lastIdx_append_some (c : Nat) (xs ys : List Nat) (j : Nat)
    (h : lastIdx c ys = some j) : lastIdx c (xs ++ ys) = some (xs.length + j) := by
  induction xs with
  | nil => simpa using h
  | cons b t ih =>
    rw [List.cons_append, lastIdx_cons, ih]
    exact congrArg some (by simp only [List.length_cons]; omega)

theorem lastIdx_append_none (c : Nat) (xs ys : List Nat)
    (h : lastIdx c ys = none) : lastIdx c (xs ++ ys) = lastIdx c xs := by
  induction xs with
  | nil => simpa using h
  | cons b t ih =>
    rw [List.cons_append, lastIdx_cons, ih]
    conv_rhs => rw [lastIdx_cons]

theorem firstIdx_append (c : Nat) (xs ys : List Nat) (h : c ∉ xs) :
    firstIdx c (xs ++ c :: ys) = some xs.length := by
  induction xs with
  | nil =>
    rw [List.nil_append, firstIdx_cons]
    simp
  | cons b t ih =>
    simp only [List.mem_cons, not_or] at h
    rw [List.cons_append, firstIdx_cons]
    rw [if_neg (fun e => h.1 e.symm), ih h.2]
    simp

/-! ### Template expansion and contraction -/

/-- On a template that does contain `@` and `.` (with the last `.` after the
single `@`), `systemd_template_unit` produces the prefix through `@`, the
instance, and the suffix from the last dot. -/
theorem template_expand_eq (pfx mid suf i : List Nat)
    (hp : 64 ∉ pfx) (hs : 46 ∉ suf) :
    systemd_template_unit (pfx ++ 64 :: (mid ++ 46 :: suf)) i =
      some ((pfx ++ [64]) ++ i ++ 46 :: suf) := by
  unfold systemd_template_unit
  have h1 : firstIdx 64 (pfx ++ 64 :: (mid ++ 46 :: suf)) = some pfx.length :=
    firstIdx_append 64 pfx _ hp
  have h46 : lastIdx 46 (46 :: suf) = some 0 := by
    rw [lastIdx_cons, lastIdx_not_mem 46 suf hs]
    simp
  have e2 : pfx ++ 64 :: (mid ++ 46 :: suf) = (pfx ++ 64 :: mid) ++ 46 :: suf := by
    simp
  have h2 : lastIdx 46 (pfx ++ 64 :: (mid ++ 46 :: suf)) =
      some ((pfx ++ 64 :: mid).length + 0) := by
    rw [e2]
    exact lastIdx_append_some 46 (pfx ++ 64 :: mid) (46 :: suf) 0 h46
  rw [h1, h2]
  refine congrArg some ?_
  have ht : (pfx ++ 64 :: (mid ++ 46 :: suf)).take (pfx.length + 1) = pfx ++ [64] := by
    have e1 : pfx ++ 64 :: (mid ++ 46 :: suf) = (pfx ++ [64]) ++ (mid ++ 46 :: suf) := by
      simp
    rw [e1, List.take_left' (by simp)]
  have hd : (pfx ++ 64 :: (mid ++ 46 :: suf)).drop ((pfx ++ 64 :: mid).length + 0) =
      46 :: suf := by
    rw [e2, Nat.add_zero, List.drop_left]
  rw [ht, hd]

/-- On a unit name of the shape `prefix@INSTANCE.suffix` — no `@` in the
prefix, the instance, or the suffix, and no `.` in the suffix —
`systemd_untemplate_unit` recovers exactly the instance. -/
theorem untemplate_expanded (pfx suf i : List Nat) (_hp : 64 ∉ pfx) (hi : 64 ∉ i)
    (hs64 : 64 ∉ suf) (hs46 : 46 ∉ suf) :
    systemd_untemplate_unit ((pfx ++ [64]) ++ i ++ 46 :: suf) = some i := by
  unfold systemd_untemplate_unit
  have h64ys : lastIdx 64 (i ++ 46 :: suf) = none := by
    apply lastIdx_not_mem
    simp only [List.mem_append, List.mem_cons, not_or]
    exact ⟨hi, by decide, hs64⟩
  have h64one : lastIdx 64 (pfx ++ [64]) = some pfx.length := by
    have h0 : lastIdx 64 [64] = some 0 := by rfl
    simpa using lastIdx_append_some 64 pfx [64] 0 h0
  have hA : lastIdx 64 ((pfx ++ [64]) ++ i ++ 46 :: suf) = some pfx.length := by
    rw [List.append_assoc (pfx ++ [64]), lastIdx_append_none 64 _ _ h64ys, h64one]
  have h46c : lastIdx 46 (46 :: suf) = some 0 := by
    rw [lastIdx_cons, lastIdx_not_mem 46 suf hs46]
    simp
  have hB : lastIdx 46 ((pfx ++ [64]) ++ i ++ 46 :: suf) =
      some (((pfx ++ [64]) ++ i).length + 0) :=
    lastIdx_append_some 46 ((pfx ++ [64]) ++ i) (46 :: suf) 0 h46c
  rw [hA, hB]
  simp only [Option.getD_some]
  have hlen : ((pfx ++ [64]) ++ i).length + 0 = pfx.length + 1 + i.length := by
    simp
    omega
  rw [hlen]
  rw [if_neg (by omega : ¬ (pfx.length + 1 + i.length < pfx.length + 1))]
  have hdrop : ((pfx ++ [64]) ++ i ++ 46 :: suf).drop (pfx.length + 1) =
      i ++ 46 :: suf := by
    rw [List.append_assoc (pfx ++ [64]), List.drop_left' (by simp)]
  rw [hdrop]
  rw [show pfx.length + 1 + i.length - (pfx.length + 1) = i.length from by omega]
  rw [List.take_left' rfl]

/-- When the unit name contains no `@` at all, `systemd_untemplate_unit`
reports no match. -/
theorem untemplate_no_at (u : List Nat) (h : 64 ∉ u) :
    systemd_untemplate_unit u = none := by
  unfold systemd_untemplate_unit
  rw [lastIdx_not_mem 64 u h]

/-! ### C2: the defined part of `systemd_template_unit` -/

/-- C2 (defined part): on every template containing a single `@` (none in
`pfx`) and with a last `.` whose suffix is `suf`, the expansion equals the
template through the `@`, then the instance, then the template from its
last `.`.  The failure half of the claim is a code bug: with no `@` or no
`.` the C code performs NULL-pointer arithmetic / `strlen(NULL)` instead of
returning an error (see `systemd_template_unit`'s `none` branch, which
models that crash). -/
theorem c2_template_expand_defined (pfx mid suf i : List Nat)
    (hp : 64 ∉ pfx) (hs : 46 ∉ suf) :
    systemd_template_unit (pfx ++ 64 :: (mid ++ 46 :: suf)) i =
      some ((pfx ++ [64]) ++ i ++ 46 :: suf) :=
  template_expand_eq pfx mid suf i hp hs

/-- Witness for `c2_template_expand_defined`: expanding
`onedriver@.service` with instance `this-is-a-test` (the launcher's own
test case). -/
theorem c2_template_expand_defined_witness :
    systemd_template_unit
        (bytes "onedriver" ++ 64 :: ([] ++ 46 :: bytes "service"))
        (bytes "this-is-a-test") =
      some ((bytes "onedriver" ++ [64]) ++ bytes "this-is-a-test" ++ 46 :: bytes "service") :=
  c2_template_expand_defined (bytes "onedriver") [] (bytes "service")
    (bytes "this-is-a-test") (by decide) (by decide)

/-! ### C9: contraction inverts expansion -/

/-- C9: for every well-formed template — a single `@` and a final
`.`-delimited suffix after it — and every instance produced by
`systemd_escape`, expanding and then contracting returns exactly the
instance; on the concrete pair from the spec,
`prefix@.service` with `home-test-yesYes` expands to
`prefix@home-test-yesYes.service` and contracts back; and contraction
fails (no match) on every input without an `@`. -/
theorem c9_template_contract_inverse :
    (∀ pfx mid suf s : List Nat, 64 ∉ pfx → 64 ∉ mid → 64 ∉ suf → 46 ∉ suf →
      ∃ e, systemd_template_unit (pfx ++ 64 :: (mid ++ 46 :: suf)) (systemd_escape s) =
              some e ∧
           systemd_untemplate_unit e = some (systemd_escape s)) ∧
    (systemd_template_unit (bytes "prefix@.service") (bytes "home-test-yesYes") =
        some (bytes "prefix@home-test-yesYes.service") ∧
     systemd_untemplate_unit (bytes "prefix@home-test-yesYes.service") =
        some (bytes "home-test-yesYes")) ∧
    (∀ u : List Nat, 64 ∉ u → systemd_untemplate_unit u = none) := by
  refine ⟨?_, ⟨by decide, by decide⟩, fun u h => untemplate_no_at u h⟩
  intro pfx mid suf s hp _ hs64 hs46
  exact ⟨(pfx ++ [64]) ++ systemd_escape s ++ 46 :: suf,
    template_expand_eq pfx mid suf (systemd_escape s) hp hs46,
    untemplate_expanded pfx suf (systemd_escape s) hp (escape_no_at s) hs64 hs46⟩

/-- Witness for `c9_template_contract_inverse`: the no-`@` failure case and
the expand/contract round trip at a concrete template and path. -/
theorem c9_template_contract_inverse_witness :
    systemd_untemplate_unit (bytes "noat.service") = none ∧
    (∃ e, systemd_template_unit
            (bytes "onedriver" ++ 64 :: ([] ++ 46 :: bytes "service"))
            (systemd_escape (bytes "/home/x")) = some e ∧
          systemd_untemplate_unit e = some (systemd_escape (bytes "/home/x"))) :=
  ⟨c9_template_contract_inverse.2.2 (bytes "noat.service") (by decide),
   c9_template_contract_inverse.1 (bytes "onedriver") [] (bytes "service")
     (bytes "/home/x") (by decide) (by decide) (by decide) (by decide)⟩

/-! ### C4: `systemd_unit_is_active` and the unknown-unit case -/

/-- C4: when `GetUnit` reports the unit as unknown (`NoSuchUnit`), the
function returns the normal value `false` — it does not reach the fatal
`g_error` path (`none` in the model); otherwise, once the unit's object
path is resolved and its proxy created, the result is `true` exactly when
the unit's cached `ActiveState` property equals `"active"`. -/
theorem c4_is_active_spec (bus : DBus) (name : List Nat) :
    (bus.managerProxy = true → bus.getUnit name = GetUnitResult.noSuchUnit →
      systemd_unit_is_active bus name = some false) ∧
    (∀ p, bus.managerProxy = true → bus.getUnit name = GetUnitResult.ok p →
      bus.unitProxy p = true →
      (systemd_unit_is_active bus name = some true ↔
        bus.activeState p = bytes "active")) := by
  constructor
  · intro hm hg
    unfold systemd_unit_is_active
    rw [hm, hg]
    simp
  · intro p hm hg hp
    unfold systemd_unit_is_active
    rw [hm, hg]
    simp [hp]

/-- Witness for `c4_is_active_spec`: a bus on which the unit resolves and
reports `ActiveState = "active"`. -/
theorem c4_is_active_spec_witness :
    systemd_unit_is_active
        ⟨true, fun _ => GetUnitResult.ok (bytes "/org/freedesktop/systemd1/unit/u"),
         fun _ => true, fun _ => bytes "active"⟩
        (bytes "onedriver@home-x.service") = some true :=
  ((c4_is_active_spec
      ⟨true, fun _ => GetUnitResult.ok (bytes "/org/freedesktop/systemd1/unit/u"),
       fun _ => true, fun _ => bytes "active"⟩
      (bytes "onedriver@home-x.service")).2
    (bytes "/org/freedesktop/systemd1/unit/u") rfl rfl rfl).mpr rfl

/-! ### C7: the availability poller -/

theorem pollLoop_succ (env : Nat → Option (List (List Nat))) (fuel i : Nat) :
    pollLoop env (fuel + 1) i =
      match env i with
      | none => (false, i)
      | some entries =>
        if XDG_VOLUME_INFO ∈ entries then (true, i + 1)
        else pollLoop env fuel (i + 1) := by
  rw [pollLoop.eq_def]

theorem pollLoop_count (env : Nat → Option (List (List Nat))) :
    ∀ fuel i, (pollLoop env fuel i).2 ≤ i + fuel := by
  intro fuel
  induction fuel with
  | zero => intro i; simp [pollLoop]
  | succ f ih =>
    intro i
    rw [pollLoop_succ]
    cases henv : env i with
    | none => exact Nat.le_add_right i (f + 1)
    | some entries =>
      show (if XDG_VOLUME_INFO ∈ entries then (true, i + 1)
            else pollLoop env f (i + 1)).2 ≤ i + (f + 1)
      by_cases hm : XDG_VOLUME_INFO ∈ entries
      · rw [if_pos hm]
        show i + 1 ≤ i + (f + 1)
        omega
      · rw [if_neg hm]
        have := ih (i + 1)
        omega

theorem pollLoop_opendir_fails (env : Nat → Option (List (List Nat)))
    (fuel i : Nat) (h : env i = none) : pollLoop env fuel i = (false, i) := by
  cases fuel with
  | zero => rfl
  | succ f =>
    rw [pollLoop_succ, h]

theorem pollLoop_finds (env : Nat → Option (List (List Nat))) :
    ∀ (j fuel i : Nat), j < fuel →
      (∀ k, k < j → ∃ es, env (i + k) = some es ∧ XDG_VOLUME_INFO ∉ es) →
      (∃ es, env (i + j) = some es ∧ XDG_VOLUME_INFO ∈ es) →
      pollLoop env fuel i = (true, i + j + 1) := by
  intro j
  induction j with
  | zero =>
    intro fuel i hlt _ hfind
    obtain ⟨es, he, hm⟩ := hfind
    rw [Nat.add_zero] at he
    obtain ⟨f, rfl⟩ : ∃ f, fuel = f + 1 := ⟨fuel - 1, by omega⟩
    rw [pollLoop_succ, he]
    show (if XDG_VOLUME_INFO ∈ es then (true, i + 1)
          else pollLoop env f (i + 1)) = (true, i + 0 + 1)
    rw [if_pos hm]
  | succ j ih =>
    intro fuel i hlt hpre hfind
    obtain ⟨f, rfl⟩ : ∃ f, fuel = f + 1 := ⟨fuel - 1, by omega⟩
    obtain ⟨es0, he0, hm0⟩ := hpre 0 (by omega)
    rw [Nat.add_zero] at he0
    have hpre2 : ∀ k, k < j → ∃ es, env ((i + 1) + k) = some es ∧
        XDG_VOLUME_INFO ∉ es := by
      intro k hk
      have h := hpre (k + 1) (by omega)
      have e : i + (k + 1) = (i + 1) + k := by omega
      rwa [e] at h
    have hfind2 : ∃ es, env ((i + 1) + j) = some es ∧ XDG_VOLUME_INFO ∈ es := by
      have e : i + (j + 1) = (i + 1) + j := by omega
      rwa [e] at hfind
    rw [pollLoop_succ, he0]
    show (if XDG_VOLUME_INFO ∈ es0 then (true, i + 1)
          else pollLoop env f (i + 1)) = (true, i + (j + 1) + 1)
    rw [if_neg hm0, ih f (i + 1) (by omega) hpre2 hfind2]
    exact congrArg (Prod.mk true) (by omega)

/-- C7: the poller always terminates — it performs at most
`timeout * 10` directory polls (with `timeout = -1` behaving exactly as
`120`), returns right after the first poll that sees the sentinel
`.xdg-volume-info` entry, and returns at once, having read no listing,
when the mountpoint directory cannot be opened. -/
theorem c7_poller_spec (env : Nat → Option (List (List Nat))) (timeout : Int) :
    fs_poll_until_avail env (-1) = fs_poll_until_avail env 120 ∧
    (fs_poll_until_avail env timeout).2 ≤
      (((if timeout = -1 then 120 else timeout) : Int) * 10).toNat ∧
    (env 0 = none → fs_poll_until_avail env timeout = (false, 0)) ∧
    (∀ j : Nat, j < (((if timeout = -1 then 120 else timeout) : Int) * 10).toNat →
      (∀ k, k < j → ∃ es, env k = some es ∧ XDG_VOLUME_INFO ∉ es) →
      (∃ es, env j = some es ∧ XDG_VOLUME_INFO ∈ es) →
      fs_poll_until_avail env timeout = (true, j + 1)) := by
  refine ⟨rfl, ?_, ?_, ?_⟩
  · have h := pollLoop_count env
      (((if timeout = -1 then 120 else timeout) : Int) * 10).toNat 0
    simpa [fs_poll_until_avail] using h
  · intro h
    unfold fs_poll_until_avail
    exact pollLoop_opendir_fails env _ 0 h
  · intro j hj hpre hfind
    unfold fs_poll_until_avail
    have hpre0 : ∀ k, k < j → ∃ es, env (0 + k) = some es ∧ XDG_VOLUME_INFO ∉ es := by
      intro k hk
      simpa using hpre k hk
    have hfind0 : ∃ es, env (0 + j) = some es ∧ XDG_VOLUME_INFO ∈ es := by
      simpa using hfind
    have h := pollLoop_finds env j
      (((if timeout = -1 then 120 else timeout) : Int) * 10).toNat 0 hj hpre0 hfind0
    simpa using h

/-- Witness for `c7_poller_spec`: an environment whose first poll already
shows the sentinel, with a 2-second timeout. -/
theorem c7_poller_spec_witness :
    fs_poll_until_avail (fun _ => some [XDG_VOLUME_INFO]) 2 = (true, 1) :=
  (c7_poller_spec (fun _ => some [XDG_VOLUME_INFO]) 2).2.2.2 0 (by decide)
    (fun k hk => absurd hk (by omega))
    ⟨[XDG_VOLUME_INFO], rfl, by decide⟩

/-! ### C8: mountpoint validity -/

/-- C8: `fs_mountpoint_is_valid` returns `true` exactly when the path is
non-empty, the directory opens, and its listing holds nothing besides `.`
and `..` — so it is `false` for the empty path, an unopenable directory,
or any directory with another entry, and `true` for an existing empty
directory. -/
theorem c8_mountpoint_valid_spec (dirs : List Nat → Option (List (List Nat)))
    (mp : List Nat) :
    fs_mountpoint_is_valid dirs mp = true ↔
      mp ≠ [] ∧ ∃ es, dirs mp = some es ∧
        ∀ e ∈ es, e = bytes "." ∨ e = bytes ".." := by
  unfold fs_mountpoint_is_valid
  by_cases hmp : mp.length = 0
  · rw [if_pos hmp]
    simp [List.length_eq_zero.mp hmp]
  · rw [if_neg hmp]
    have hne : mp ≠ [] := fun e => hmp (by simp [e])
    cases hd : dirs mp with
    | none => simp [hne]
    | some es =>
      simp only [hne, ne_eq, not_false_eq_true, true_and]
      rw [List.all_eq_true]
      constructor
      · intro h
        exact ⟨es, rfl, fun e he => by simpa using h e he⟩
      · rintro ⟨es2, hes2, h⟩
        obtain rfl : es = es2 := by
          injection hes2
        intro e he
        simpa using h e he

/-- Witness for `c8_mountpoint_valid_spec`: a directory containing only `.`
and `..` is a valid mountpoint. -/
theorem c8_mountpoint_valid_spec_witness :
    fs_mountpoint_is_valid (fun _ => some [bytes ".", bytes ".."]) (bytes "/mnt") = true :=
  (c8_mountpoint_valid_spec (fun _ => some [bytes ".", bytes ".."]) (bytes "/mnt")).mpr
    ⟨by decide, [bytes ".", bytes ".."], rfl, by decide⟩

/-! ### C10: the known-mounts enumeration -/

/-- C10, counterexample: the claim says `fs_known_mounts` always returns a
list, but a cache entry whose directory name is not a well-formed escape —
here a directory literally named `a\b` — makes `systemd_unescape` fail,
after which the C code calls `strlen(NULL)` and crashes (`none` in the
model) instead of returning any array. -/
theorem c10_counterexample :
    fs_known_mounts (some [⟨bytes "a\\b", 4⟩]) (fun _ => true) = none := by
  rfl

theorem knownMountsLoop_cons (statIsDir : List Nat → Bool) (e : DirEnt)
    (rest : List DirEnt) :
    knownMountsLoop statIsDir (e :: rest) =
      if e.d_type &&& 4 ≠ 0 ∧ e.d_name.headD 0 ≠ 46 then
        match systemd_unescape e.d_name with
        | none => none
        | some path =>
          if statIsDir (47 :: path) then
            (knownMountsLoop statIsDir rest).map (fun r => (47 :: path) :: r)
          else knownMountsLoop statIsDir rest
      else knownMountsLoop statIsDir rest := by
  rw [knownMountsLoop.eq_def]

theorem knownMountsLoop_ok (statIsDir : List Nat → Bool) (entries : List DirEnt)
    (h : ∀ e ∈ entries, e.d_type &&& 4 ≠ 0 → e.d_name.headD 0 ≠ 46 →
      (systemd_unescape e.d_name).isSome) :
    ∃ l, knownMountsLoop statIsDir entries = some l ∧
      ∀ p ∈ l, ∃ q, p = 47 :: q := by
  induction entries with
  | nil => exact ⟨[], rfl, by simp⟩
  | cons e rest ih =>
    obtain ⟨l, hl, hall⟩ := ih (fun e2 he2 => h e2 (List.mem_cons_of_mem _ he2))
    by_cases hcond : e.d_type &&& 4 ≠ 0 ∧ e.d_name.headD 0 ≠ 46
    · obtain ⟨path, hpath⟩ := Option.isSome_iff_exists.mp
        (h e (List.mem_cons_self e rest) hcond.1 hcond.2)
      by_cases hstat : statIsDir (47 :: path) = true
      · have heq : knownMountsLoop statIsDir (e :: rest) = some ((47 :: path) :: l) := by
          rw [knownMountsLoop_cons, if_pos hcond, hpath]
          show (if statIsDir (47 :: path) = true then
                  (knownMountsLoop statIsDir rest).map (fun r => (47 :: path) :: r)
                else knownMountsLoop statIsDir rest) = some ((47 :: path) :: l)
          rw [if_pos hstat, hl]
          rfl
        refine ⟨(47 :: path) :: l, heq, ?_⟩
        intro p hp
        rcases List.mem_cons.mp hp with rfl | hp
        · exact ⟨path, rfl⟩
        · exact hall p hp
      · have heq : knownMountsLoop statIsDir (e :: rest) = some l := by
          rw [knownMountsLoop_cons, if_pos hcond, hpath]
          show (if statIsDir (47 :: path) = true then
                  (knownMountsLoop statIsDir rest).map (fun r => (47 :: path) :: r)
                else knownMountsLoop statIsDir rest) = some l
          rw [if_neg hstat, hl]
        exact ⟨l, heq, hall⟩
    · have heq : knownMountsLoop statIsDir (e :: rest) = some l := by
        rw [knownMountsLoop_cons, if_neg hcond, hl]
      exact ⟨l, heq, hall⟩

/-- C10 (amended): when the cache root cannot be opened the result is the
empty list — a lone NULL terminator, not an error — and whenever every
directory-typed, non-dotfile cache entry has a name that unescapes
successfully, the function returns a list in which every element is an
absolute path beginning with `/`.  (Without that proviso the C code
crashes on `strlen(NULL)`, see `c10_counterexample`.) -/
theorem c10_known_mounts_amended (statIsDir : List Nat → Bool) :
    fs_known_mounts none statIsDir = some [] ∧
    (∀ entries : List DirEnt,
      (∀ e ∈ entries, e.d_type &&& 4 ≠ 0 → e.d_name.headD 0 ≠ 46 →
        (systemd_unescape e.d_name).isSome) →
      ∃ l, fs_known_mounts (some entries) statIsDir = some l ∧
        ∀ p ∈ l, ∃ q, p = 47 :: q) := by
  refine ⟨rfl, ?_⟩
  intro entries h
  exact knownMountsLoop_ok statIsDir entries h

/-- Witness for `c10_known_mounts_amended`: a single well-escaped cache
entry `home-x` whose decoded mountpoint exists. -/
theorem c10_known_mounts_amended_witness :
    ∃ l, fs_known_mounts (some [⟨bytes "home-x", 4⟩]) (fun _ => true) = some l ∧
      ∀ p ∈ l, ∃ q, p = 47 :: q :=
  (c10_known_mounts_amended (fun _ => true)).2 [⟨bytes "home-x", 4⟩] (by decide)

end Onedriver
